import Mathlib

/-!
Shallow embedding of the AFL betting opportunity finder
(main_hedge_analysis.py) over exact rational arithmetic.

Python floats are modelled as rationals; Python runtime errors
(KeyError from a missing dictionary field, ZeroDivisionError from
division by zero) are modelled with an explicit error monad, so a
function that can raise returns an Except value.  Python dict literals
are modelled as association lists built with an insert-or-overwrite
operation, preserving insertion order, and dict iteration follows the
insertion order of the association list.  Python round(x, 2) is
modelled as exact round-half-to-even at two decimal places.
-/

/-- Python runtime errors that the analysis code can raise. -/
inductive PyErr where
  | keyError : PyErr
  | zeroDivisionError : PyErr
deriving DecidableEq

/-- One bookmaker's two-way quote for a match: decimal home and away odds. -/
structure Quote where
  home : ℚ
  away : ℚ
deriving DecidableEq

/-- One entry of a stake_distribution dict. -/
structure StakeEntry where
  team : String
  amount : ℚ
  odds : ℚ
  potential_return : ℚ
deriving DecidableEq

/-- The BettingOpportunity dataclass.  The field called here matchName is
the dataclass field named match in the source (match is a Lean keyword). -/
structure BettingOpportunity where
  matchName : String
  home_team : String
  away_team : String
  opportunity_type : String
  profit_percentage : ℚ
  stake_distribution : List (String × StakeEntry)
  total_stake : ℚ
  guaranteed_profit : ℚ
  roi : ℚ
deriving DecidableEq

/-- One match record of the input dataset.  The team fields are optional
so that a match entry missing a required field can be represented; reading
a missing field raises KeyError, as in Python. -/
structure MatchRec where
  home_team : Option String
  away_team : Option String
  odds : List (String × Quote)
deriving DecidableEq

/-- The configuration held by AFLOpportunityFinder.__init__. -/
structure Config where
  bankroll : ℚ
  min_profit_percentage : ℚ
  max_stake_percentage : ℚ
deriving DecidableEq

/-- self.max_stake_per_opportunity = bankroll * (max_stake_percentage / 100). -/
def Config.max_stake_per_opportunity (c : Config) : ℚ :=
  c.bankroll * (c.max_stake_percentage / 100)

/-- Reading a required field: returns the value or raises KeyError. -/
def getField (o : Option String) : Except PyErr String :=
  match o with
  | some s => Except.ok s
  | none => Except.error PyErr.keyError

/-- Round half to even to the nearest integer (Python round with no extra
decimal places). -/
def roundHalfEven (q : ℚ) : ℤ :=
  if q - ⌊q⌋ < 1/2 then ⌊q⌋
  else if 1/2 < q - ⌊q⌋ then ⌊q⌋ + 1
  else if ⌊q⌋ % 2 = 0 then ⌊q⌋ else ⌊q⌋ + 1

/-- Python round(x, 2): round half to even at two decimal places. -/
def pyRound2 (q : ℚ) : ℚ := (roundHalfEven (q * 100) : ℚ) / 100

/-- Python dict insert: overwrite the value if the key is present
(keeping its position), append otherwise. -/
def dictInsert (k : String) (v : StakeEntry) :
    List (String × StakeEntry) → List (String × StakeEntry)
  | [] => [(k, v)]
  | (k', v') :: rest =>
    if k' = k then (k, v) :: rest else (k', v') :: dictInsert k v rest

/-- The best-odds loop of calculate_arbitrage_opportunities (lines 84-96):
starting from best odds 0 and no bookmaker, each quote whose home (resp.
away) odds strictly exceed the current best replaces it.  Returns
(best_home_odds, best_away_odds, best_home_book, best_away_book). -/
def bestOddsStep (acc : ℚ × ℚ × Option String × Option String)
    (bq : String × Quote) : ℚ × ℚ × Option String × Option String :=
  let bh := if acc.1 < bq.2.home then bq.2.home else acc.1
  let hbk := if acc.1 < bq.2.home then some bq.1 else acc.2.2.1
  let ba := if acc.2.1 < bq.2.away then bq.2.away else acc.2.1
  let abk := if acc.2.1 < bq.2.away then some bq.1 else acc.2.2.2
  (bh, ba, hbk, abk)

def bestOddsFold (odds : List (String × Quote)) :
    ℚ × ℚ × Option String × Option String :=
  odds.foldl bestOddsStep (0, 0, none, none)

/-- total_stake of _calculate_arbitrage (line 176):
min(self.max_stake_per_opportunity, self.bankroll * 0.1). -/
def arbTotalStake (cfg : Config) : ℚ :=
  min cfg.max_stake_per_opportunity (cfg.bankroll * (1/10))

/-- home_stake of _calculate_arbitrage (line 178):
(home_prob / total_prob) * total_stake with home_prob = 1/home_odds. -/
def arbHomeStake (cfg : Config) (h a : ℚ) : ℚ :=
  ((1/h) / (1/h + 1/a)) * arbTotalStake cfg

/-- away_stake of _calculate_arbitrage (line 179). -/
def arbAwayStake (cfg : Config) (h a : ℚ) : ℚ :=
  ((1/a) / (1/h + 1/a)) * arbTotalStake cfg

/-- guaranteed_profit of _calculate_arbitrage (line 184):
min(home_return, away_return) - total_stake. -/
def arbGuaranteedProfit (cfg : Config) (h a : ℚ) : ℚ :=
  min (arbHomeStake cfg h a * h) (arbAwayStake cfg h a * a) - arbTotalStake cfg

/-- The BettingOpportunity record that _calculate_arbitrage builds
(lines 189-214).  The stake_distribution dict literal inserts the home
entry first and the away entry second, so with equal bookmaker keys the
away entry overwrites the home entry. -/
def arbOpportunity (cfg : Config) (home_odds away_odds : ℚ)
    (home_book away_book home_team away_team match_name : String) :
    BettingOpportunity :=
  { matchName := match_name
    home_team := home_team
    away_team := away_team
    opportunity_type := "arbitrage"
    profit_percentage := (1 / (1/home_odds + 1/away_odds) - 1) * 100
    stake_distribution :=
      dictInsert away_book
        { team := away_team
          amount := pyRound2 (arbAwayStake cfg home_odds away_odds)
          odds := away_odds
          potential_return :=
            pyRound2 (arbAwayStake cfg home_odds away_odds * away_odds) }
        (dictInsert home_book
          { team := home_team
            amount := pyRound2 (arbHomeStake cfg home_odds away_odds)
            odds := home_odds
            potential_return :=
              pyRound2 (arbHomeStake cfg home_odds away_odds * home_odds) }
          [])
    total_stake := pyRound2 (arbTotalStake cfg)
    guaranteed_profit := pyRound2 (arbGuaranteedProfit cfg home_odds away_odds)
    roi := arbGuaranteedProfit cfg home_odds away_odds / arbTotalStake cfg * 100 }

/-- _calculate_arbitrage (lines 158-214).  Returns ok none when no
arbitrage exists (total implied probability at least 1), raises
ZeroDivisionError exactly where Python would divide by zero, and
otherwise returns the constructed opportunity. -/
def calcArbitrageDetails (cfg : Config) (home_odds away_odds : ℚ)
    (home_book away_book home_team away_team match_name : String) :
    Except PyErr (Option BettingOpportunity) :=
  if home_odds = 0 ∨ away_odds = 0 then Except.error PyErr.zeroDivisionError
  else
    if 1 ≤ 1/home_odds + 1/away_odds then Except.ok none
    else if 1/home_odds + 1/away_odds = 0 then Except.error PyErr.zeroDivisionError
    else if arbTotalStake cfg = 0 then Except.error PyErr.zeroDivisionError
    else
      Except.ok (some (arbOpportunity cfg home_odds away_odds
        home_book away_book home_team away_team match_name))

/-- The body of the match loop of calculate_arbitrage_opportunities
(lines 76-110): read the team fields, find the best odds per outcome,
and call _calculate_arbitrage when both best odds are positive. -/
def arbForMatch (cfg : Config) (m : MatchRec) :
    Except PyErr (Option BettingOpportunity) :=
  match getField m.home_team with
  | Except.error e => Except.error e
  | Except.ok home_team =>
    match getField m.away_team with
    | Except.error e => Except.error e
    | Except.ok away_team =>
      let best := bestOddsFold m.odds
      if 0 < best.1 ∧ 0 < best.2.1 then
        calcArbitrageDetails cfg best.1 best.2.1
          ((best.2.2.1).getD "") ((best.2.2.2).getD "")
          home_team away_team (home_team ++ " vs " ++ away_team)
      else Except.ok none

/-- calculate_arbitrage_opportunities (lines 70-112): per match, an
opportunity is appended exactly when _calculate_arbitrage returned one
and its profit_percentage is at least min_profit_percentage. -/
def calculate_arbitrage_opportunities (cfg : Config) :
    List MatchRec → Except PyErr (List BettingOpportunity)
  | [] => Except.ok []
  | m :: rest =>
    match arbForMatch cfg m with
    | Except.error e => Except.error e
    | Except.ok r =>
      match calculate_arbitrage_opportunities cfg rest with
      | Except.error e => Except.error e
      | Except.ok rest' =>
        match r with
        | some opp =>
          if cfg.min_profit_percentage ≤ opp.profit_percentage
          then Except.ok (opp :: rest')
          else Except.ok rest'
        | none => Except.ok rest'

/-- The de-margined probability pair of one bookmaker
(_calculate_fair_probabilities, lines 232-238): raw implied
probabilities 1/h and 1/a, each divided by their sum. -/
def demargin (h a : ℚ) : ℚ × ℚ :=
  ((1/h) / (1/h + 1/a), (1/a) / (1/h + 1/a))

/-- The home_probs list of _calculate_fair_probabilities: normalized
home probabilities of the bookmakers whose odds are both positive. -/
def homeProbs (bookmaker_odds : List (String × Quote)) : List ℚ :=
  bookmaker_odds.filterMap (fun bq =>
    if 0 < bq.2.home ∧ 0 < bq.2.away then some (demargin bq.2.home bq.2.away).1
    else none)

/-- The away_probs list of _calculate_fair_probabilities. -/
def awayProbs (bookmaker_odds : List (String × Quote)) : List ℚ :=
  bookmaker_odds.filterMap (fun bq =>
    if 0 < bq.2.home ∧ 0 < bq.2.away then some (demargin bq.2.home bq.2.away).2
    else none)

/-- _calculate_fair_probabilities (lines 224-247): average the
normalized probabilities across bookmakers with valid odds, returning
(0, 0) when there are none. -/
def calculate_fair_probabilities (bookmaker_odds : List (String × Quote)) :
    ℚ × ℚ :=
  if homeProbs bookmaker_odds = [] then (0, 0)
  else
    ((homeProbs bookmaker_odds).sum / (homeProbs bookmaker_odds).length,
     (awayProbs bookmaker_odds).sum / (awayProbs bookmaker_odds).length)

/-- The stake of _create_value_bet (lines 254-266): quarter-Kelly of the
edge, capped by max_stake_per_opportunity and by 5% of bankroll. -/
def valueStake (cfg : Config) (odds value_percentage : ℚ) : ℚ :=
  min ((value_percentage / 100) / (odds - 1) * (25/100) * cfg.bankroll)
    (min cfg.max_stake_per_opportunity (cfg.bankroll * (5/100)))

/-- The BettingOpportunity record that _create_value_bet builds
(lines 268-292). -/
def valueBetOpportunity (cfg : Config)
    (match_name home_team away_team team_side : String)
    (odds : ℚ) (bookmaker : String) (value_percentage : ℚ) :
    BettingOpportunity :=
  { matchName := match_name
    home_team := home_team
    away_team := away_team
    opportunity_type := "value_bet"
    profit_percentage := value_percentage
    stake_distribution :=
      [(bookmaker,
        { team := if team_side = "home" then home_team else away_team
          amount := pyRound2 (valueStake cfg odds value_percentage)
          odds := odds
          potential_return :=
            pyRound2 (valueStake cfg odds value_percentage * odds) })]
    total_stake := pyRound2 (valueStake cfg odds value_percentage)
    guaranteed_profit :=
      pyRound2 (valueStake cfg odds value_percentage * (odds - 1))
    roi := valueStake cfg odds value_percentage * (odds - 1)
           / valueStake cfg odds value_percentage * 100 }

/-- _create_value_bet (lines 249-292): builds a value_bet opportunity;
raises ZeroDivisionError where Python would (odds equal to 1 in the
Kelly fraction, or a zero stake in the roi division). -/
def createValueBet (cfg : Config)
    (match_name home_team away_team team_side : String)
    (odds : ℚ) (bookmaker : String) (value_percentage : ℚ) :
    Except PyErr BettingOpportunity :=
  if odds - 1 = 0 then Except.error PyErr.zeroDivisionError
  else if valueStake cfg odds value_percentage = 0 then
    Except.error PyErr.zeroDivisionError
  else
    Except.ok (valueBetOpportunity cfg match_name home_team away_team
      team_side odds bookmaker value_percentage)

/-- One side of the per-bookmaker loop body of calculate_value_bets
(lines 133-154): if the quoted odds exceed fair_odds * 1.05, compute
value_percentage = ((quoted / fair_odds) - 1) * 100 (raising
ZeroDivisionError if fair_odds is 0, as Python does) and create the
value bet when it reaches min_profit_percentage. -/
def valueCheckSide (cfg : Config)
    (match_name home_team away_team team_side : String)
    (fair_odds quoted : ℚ) (bookmaker : String) :
    Except PyErr (Option BettingOpportunity) :=
  if fair_odds * (105/100) < quoted then
    if fair_odds = 0 then Except.error PyErr.zeroDivisionError
    else
      if cfg.min_profit_percentage ≤ (quoted / fair_odds - 1) * 100 then
        match createValueBet cfg match_name home_team away_team team_side
            quoted bookmaker ((quoted / fair_odds - 1) * 100) with
        | Except.error e => Except.error e
        | Except.ok vb => Except.ok (some vb)
      else Except.ok none
  else Except.ok none

/-- The bookmaker loop of calculate_value_bets: for each quote, in
order, check the home side then the away side against the fair odds. -/
def valueQuotes (cfg : Config)
    (match_name home_team away_team : String) (fho fao : ℚ) :
    List (String × Quote) → Except PyErr (List BettingOpportunity)
  | [] => Except.ok []
  | (b, q) :: rest =>
    match valueCheckSide cfg match_name home_team away_team "home"
        fho q.home b with
    | Except.error e => Except.error e
    | Except.ok r1 =>
      match valueCheckSide cfg match_name home_team away_team "away"
          fao q.away b with
      | Except.error e => Except.error e
      | Except.ok r2 =>
        match valueQuotes cfg match_name home_team away_team fho fao rest with
        | Except.error e => Except.error e
        | Except.ok rest' => Except.ok (r1.toList ++ r2.toList ++ rest')

/-- The body of the match loop of calculate_value_bets (lines 120-154):
fair odds are the reciprocals of the fair probabilities, guarded to 0
when a probability is not positive. -/
def valueForMatch (cfg : Config) (m : MatchRec) :
    Except PyErr (List BettingOpportunity) :=
  match getField m.home_team with
  | Except.error e => Except.error e
  | Except.ok home_team =>
    match getField m.away_team with
    | Except.error e => Except.error e
    | Except.ok away_team =>
      let fair := calculate_fair_probabilities m.odds
      let fho := if 0 < fair.1 then 1 / fair.1 else 0
      let fao := if 0 < fair.2 then 1 / fair.2 else 0
      valueQuotes cfg (home_team ++ " vs " ++ away_team)
        home_team away_team fho fao m.odds

/-- calculate_value_bets (lines 114-156). -/
def calculate_value_bets (cfg : Config) :
    List MatchRec → Except PyErr (List BettingOpportunity)
  | [] => Except.ok []
  | m :: rest =>
    match valueForMatch cfg m with
    | Except.error e => Except.error e
    | Except.ok opps =>
      match calculate_value_bets cfg rest with
      | Except.error e => Except.error e
      | Except.ok rest' => Except.ok (opps ++ rest')

/-- Stable insertion for the descending-roi sort: x is placed before the
first element whose roi it reaches, so elements of equal roi keep their
original relative order. -/
def insertRoi (x : BettingOpportunity) :
    List BettingOpportunity → List BettingOpportunity
  | [] => [x]
  | y :: l => if y.roi ≤ x.roi then x :: y :: l else y :: insertRoi x l

/-- Model of Python list.sort(key=roi, reverse=True), a stable sort by
descending roi. -/
def sortRoiDesc : List BettingOpportunity → List BettingOpportunity
  | [] => []
  | x :: l => insertRoi x (sortRoiDesc l)

/-- find_all_opportunities (lines 294-314): empty input short-circuits
to an empty list; otherwise concatenate the arbitrage and value-bet
lists and sort by descending roi. -/
def find_all_opportunities (cfg : Config) (ms : List MatchRec) :
    Except PyErr (List BettingOpportunity) :=
  if ms = [] then Except.ok []
  else
    match calculate_arbitrage_opportunities cfg ms with
    | Except.error e => Except.error e
    | Except.ok arbs =>
      match calculate_value_bets cfg ms with
      | Except.error e => Except.error e
      | Except.ok vals => Except.ok (sortRoiDesc (arbs ++ vals))


/-- Observable summary of an analysis result: opportunity type and
number of stake_distribution entries of each emitted opportunity. -/
def oppSummaries (e : Except PyErr (List BettingOpportunity)) :
    List (String × ℕ) :=
  match e with
  | Except.error _ => []
  | Except.ok l => l.map (fun o => (o.opportunity_type, o.stake_distribution.length))

/-- Observable summary of an analysis result: the rounded stake amounts
of every entry of every emitted opportunity, in order. -/
def amountsOf (e : Except PyErr (List BettingOpportunity)) : List ℚ :=
  match e with
  | Except.error _ => []
  | Except.ok l => (l.map (fun o => o.stake_distribution.map (fun p => p.2.amount))).flatten

/-- The arbitrage opportunity that _calculate_arbitrage builds for best
odds 3 and 3 from bookmakers b1 and b2 under configuration
(bankroll 1000, min profit 1, max stake 5%), spelled out. -/
def arbDemoOpp : BettingOpportunity :=
  { matchName := "H vs A"
    home_team := "H"
    away_team := "A"
    opportunity_type := "arbitrage"
    profit_percentage := (1 / (1/3 + 1/3 : ℚ) - 1) * 100
    stake_distribution :=
      [("b1", { team := "H", amount := pyRound2 (arbHomeStake ⟨1000, 1, 5⟩ 3 3),
                odds := 3,
                potential_return := pyRound2 (arbHomeStake ⟨1000, 1, 5⟩ 3 3 * 3) }),
       ("b2", { team := "A", amount := pyRound2 (arbAwayStake ⟨1000, 1, 5⟩ 3 3),
                odds := 3,
                potential_return := pyRound2 (arbAwayStake ⟨1000, 1, 5⟩ 3 3 * 3) })]
    total_stake := pyRound2 (arbTotalStake ⟨1000, 1, 5⟩)
    guaranteed_profit := pyRound2 (arbGuaranteedProfit ⟨1000, 1, 5⟩ 3 3)
    roi := arbGuaranteedProfit ⟨1000, 1, 5⟩ 3 3 / arbTotalStake ⟨1000, 1, 5⟩ * 100 }

/-! ## Helper lemmas -/

/-- Round-half-even never rounds up by more than one half. -/
lemma roundHalfEven_le (q : ℚ) : (roundHalfEven q : ℚ) ≤ q + 1/2 := by
  unfold roundHalfEven
  have hfl : (⌊q⌋ : ℚ) ≤ q := Int.floor_le q
  split_ifs with h1 h2 h3
  · linarith
  · push_cast
    linarith
  · linarith
  · push_cast
    linarith

/-- Python round(x, 2) exceeds x by at most half a cent. -/
lemma pyRound2_le (q : ℚ) : pyRound2 q ≤ q + 1/200 := by
  have h := roundHalfEven_le (q * 100)
  unfold pyRound2
  linarith

/-- The de-margined pair of one bookmaker sums to one. -/
lemma demargin_add (h a : ℚ) (hh : 0 < h) (ha : 0 < a) :
    (demargin h a).1 + (demargin h a).2 = 1 := by
  unfold demargin
  have h1 : (0:ℚ) < 1/h := by positivity
  have h2 : (0:ℚ) < 1/a := by positivity
  field_simp

lemma homeProbs_cons (bq : String × Quote) (l : List (String × Quote)) :
    homeProbs (bq :: l) =
      if 0 < bq.2.home ∧ 0 < bq.2.away
      then (demargin bq.2.home bq.2.away).1 :: homeProbs l
      else homeProbs l := by
  unfold homeProbs
  by_cases hv : 0 < bq.2.home ∧ 0 < bq.2.away <;>
    simp [List.filterMap_cons, hv]

lemma awayProbs_cons (bq : String × Quote) (l : List (String × Quote)) :
    awayProbs (bq :: l) =
      if 0 < bq.2.home ∧ 0 < bq.2.away
      then (demargin bq.2.home bq.2.away).2 :: awayProbs l
      else awayProbs l := by
  unfold awayProbs
  by_cases hv : 0 < bq.2.home ∧ 0 < bq.2.away <;>
    simp [List.filterMap_cons, hv]

lemma probs_length_eq (l : List (String × Quote)) :
    (homeProbs l).length = (awayProbs l).length := by
  induction l with
  | nil => rfl
  | cons bq l ih =>
    rw [homeProbs_cons, awayProbs_cons]
    by_cases hv : 0 < bq.2.home ∧ 0 < bq.2.away <;> simp [hv, ih]

lemma probs_sum_add (l : List (String × Quote)) :
    (homeProbs l).sum + (awayProbs l).sum = ((homeProbs l).length : ℚ) := by
  induction l with
  | nil => simp [homeProbs, awayProbs]
  | cons bq l ih =>
    rw [homeProbs_cons, awayProbs_cons]
    by_cases hv : 0 < bq.2.home ∧ 0 < bq.2.away
    · simp only [if_pos hv, List.sum_cons, List.length_cons]
      have hd := demargin_add bq.2.home bq.2.away hv.1 hv.2
      push_cast
      linarith
    · simp only [hv, if_false]
      exact ih

lemma homeProbs_ne_nil (l : List (String × Quote))
    (hv : ∃ bq ∈ l, 0 < (bq : String × Quote).2.home ∧ 0 < bq.2.away) :
    homeProbs l ≠ [] := by
  obtain ⟨bq, hmem, hh, ha⟩ := hv
  intro hnil
  unfold homeProbs at hnil
  rw [List.filterMap_eq_nil_iff] at hnil
  have := hnil bq hmem
  simp [hh, ha] at this

lemma homeProbs_eq_nil (l : List (String × Quote))
    (hv : ∀ bq ∈ l, ¬(0 < (bq : String × Quote).2.home ∧ 0 < bq.2.away)) :
    homeProbs l = [] := by
  unfold homeProbs
  rw [List.filterMap_eq_nil_iff]
  intro bq hmem
  simp [hv bq hmem]

lemma demargin_fst_mem_Ioo (h a : ℚ) (hh : 0 < h) (ha : 0 < a) :
    0 < (demargin h a).1 ∧ (demargin h a).1 < 1 := by
  unfold demargin
  have h1 : (0:ℚ) < 1/h := by positivity
  have h2 : (0:ℚ) < 1/a := by positivity
  constructor
  · positivity
  · rw [div_lt_one (by linarith)]
    linarith

lemma demargin_snd_mem_Ioo (h a : ℚ) (hh : 0 < h) (ha : 0 < a) :
    0 < (demargin h a).2 ∧ (demargin h a).2 < 1 := by
  unfold demargin
  have h1 : (0:ℚ) < 1/h := by positivity
  have h2 : (0:ℚ) < 1/a := by positivity
  constructor
  · positivity
  · rw [div_lt_one (by linarith)]
    linarith

lemma homeProbs_mem (l : List (String × Quote)) (x : ℚ) (hx : x ∈ homeProbs l) :
    0 < x ∧ x < 1 := by
  unfold homeProbs at hx
  rw [List.mem_filterMap] at hx
  obtain ⟨bq, _, hbq⟩ := hx
  by_cases hv : 0 < bq.2.home ∧ 0 < bq.2.away
  · rw [if_pos hv, Option.some_inj] at hbq
    subst hbq
    exact demargin_fst_mem_Ioo _ _ hv.1 hv.2
  · rw [if_neg hv] at hbq
    exact absurd hbq (Option.some_ne_none x).symm

lemma awayProbs_mem (l : List (String × Quote)) (x : ℚ) (hx : x ∈ awayProbs l) :
    0 < x ∧ x < 1 := by
  unfold awayProbs at hx
  rw [List.mem_filterMap] at hx
  obtain ⟨bq, _, hbq⟩ := hx
  by_cases hv : 0 < bq.2.home ∧ 0 < bq.2.away
  · rw [if_pos hv, Option.some_inj] at hbq
    subst hbq
    exact demargin_snd_mem_Ioo _ _ hv.1 hv.2
  · rw [if_neg hv] at hbq
    exact absurd hbq (Option.some_ne_none x).symm

lemma list_sum_lt_length (l : List ℚ) (hne : l ≠ []) (hlt : ∀ x ∈ l, x < 1) :
    l.sum < (l.length : ℚ) := by
  induction l with
  | nil => exact absurd rfl hne
  | cons x l ih =>
    rcases List.eq_nil_or_concat l with h | _
    · subst h
      simpa using hlt x (List.mem_cons_self x [])
    · have hl : l ≠ [] := by
        rintro rfl
        simp_all
      have := ih hl (fun y hy => hlt y (List.mem_cons_of_mem x hy))
      have hx := hlt x (List.mem_cons_self x l)
      simp only [List.sum_cons, List.length_cons]
      push_cast
      linarith

/-- Each component of the fair-probability pair is strictly between 0
and 1 as soon as some bookmaker supplied positive odds for both sides. -/
lemma fair_probabilities_mem_Ioo (l : List (String × Quote))
    (hv : ∃ bq ∈ l, 0 < (bq : String × Quote).2.home ∧ 0 < bq.2.away) :
    (0 < (calculate_fair_probabilities l).1 ∧ (calculate_fair_probabilities l).1 < 1) ∧
    (0 < (calculate_fair_probabilities l).2 ∧ (calculate_fair_probabilities l).2 < 1) := by
  have hne : homeProbs l ≠ [] := homeProbs_ne_nil l hv
  have hnea : awayProbs l ≠ [] := by
    intro h
    exact hne (List.length_eq_zero.mp ((probs_length_eq l).trans (by simp [h])))
  unfold calculate_fair_probabilities
  rw [if_neg hne]
  have hlh : (0:ℚ) < (homeProbs l).length := by
    simpa using List.length_pos.mpr hne
  have hla : (0:ℚ) < (awayProbs l).length := by
    simpa using List.length_pos.mpr hnea
  have hsh : 0 < (homeProbs l).sum :=
    List.sum_pos _ (fun x hx => (homeProbs_mem l x hx).1) hne
  have hsa : 0 < (awayProbs l).sum :=
    List.sum_pos _ (fun x hx => (awayProbs_mem l x hx).1) hnea
  have hsh1 : (homeProbs l).sum < (homeProbs l).length :=
    list_sum_lt_length _ hne (fun x hx => (homeProbs_mem l x hx).2)
  have hsa1 : (awayProbs l).sum < (awayProbs l).length :=
    list_sum_lt_length _ hnea (fun x hx => (awayProbs_mem l x hx).2)
  refine ⟨⟨by positivity, ?_⟩, ⟨by positivity, ?_⟩⟩
  · rw [div_lt_one hlh]
    exact hsh1
  · rw [div_lt_one hla]
    exact hsa1

/-! ## Claim theorems -/

/-- Claim C2: for positive best odds h, a with 1/h + 1/a < 1, the
unrounded stakes of _calculate_arbitrage equalize the payout on both
outcomes (home_stake * h = away_stake * a), and the unrounded
guaranteed profit equals home_stake * h - total_stake. -/
theorem claim_C2_equal_payout (cfg : Config) (h a : ℚ)
    (hh : 0 < h) (ha : 0 < a) (harb : 1/h + 1/a < 1) :
    arbHomeStake cfg h a * h = arbAwayStake cfg h a * a ∧
    arbGuaranteedProfit cfg h a = arbHomeStake cfg h a * h - arbTotalStake cfg := by
  have htot : (0:ℚ) < 1/h + 1/a := by positivity
  have heq : arbHomeStake cfg h a * h = arbAwayStake cfg h a * a := by
    unfold arbHomeStake arbAwayStake
    field_simp
    ring
  refine ⟨heq, ?_⟩
  unfold arbGuaranteedProfit
  rw [← heq, min_self]

/-- Witness for claim C2 at cfg = (1000, 1, 5), h = a = 3. -/
theorem claim_C2_witness :
    arbHomeStake ⟨1000, 1, 5⟩ 3 3 * 3 = arbAwayStake ⟨1000, 1, 5⟩ 3 3 * 3 ∧
    arbGuaranteedProfit ⟨1000, 1, 5⟩ 3 3 =
      arbHomeStake ⟨1000, 1, 5⟩ 3 3 * 3 - arbTotalStake ⟨1000, 1, 5⟩ :=
  claim_C2_equal_payout ⟨1000, 1, 5⟩ 3 3 (by norm_num) (by norm_num) (by norm_num)

/-- Claim C9: each bookmaker's de-margined pair sums to exactly 1; the
averaged fair-probability pair sums to exactly 1 whenever some
bookmaker supplied positive odds for both sides; and the estimator
returns (0, 0) when no bookmaker did. -/
theorem claim_C9_fair_probabilities (odds : List (String × Quote)) :
    (∀ h a : ℚ, 0 < h → 0 < a → (demargin h a).1 + (demargin h a).2 = 1) ∧
    ((∃ bq ∈ odds, 0 < (bq : String × Quote).2.home ∧ 0 < bq.2.away) →
      (calculate_fair_probabilities odds).1 +
        (calculate_fair_probabilities odds).2 = 1) ∧
    ((∀ bq ∈ odds, ¬(0 < (bq : String × Quote).2.home ∧ 0 < bq.2.away)) →
      calculate_fair_probabilities odds = (0, 0)) := by
  refine ⟨fun h a hh ha => demargin_add h a hh ha, ?_, ?_⟩
  · intro hv
    have hne : homeProbs odds ≠ [] := homeProbs_ne_nil odds hv
    have hlen : ((homeProbs odds).length : ℚ) ≠ 0 := by
      simpa using List.length_pos.mpr hne |>.ne'
    unfold calculate_fair_probabilities
    rw [if_neg hne]
    simp only
    rw [← probs_length_eq odds, div_add_div_same, probs_sum_add odds,
      div_self hlen]
  · intro hv
    unfold calculate_fair_probabilities
    rw [if_pos (homeProbs_eq_nil odds hv)]

/-- Witness for claim C9 at a single bookmaker quoting (2, 2). -/
theorem claim_C9_witness :
    (calculate_fair_probabilities [("b", ⟨2, 2⟩)]).1 +
      (calculate_fair_probabilities [("b", ⟨2, 2⟩)]).2 = 1 :=
  (claim_C9_fair_probabilities [("b", ⟨2, 2⟩)]).2.1
    ⟨("b", ⟨2, 2⟩), List.mem_singleton_self _, by norm_num, by norm_num⟩

/-- Claim C3: the code, not the claim, is at fault.  With the single
quote (home 2, away 0) the fair-probability computation returns (0, 0),
and value-bet analysis then raises ZeroDivisionError (the quoted home
odds 2 pass the edge check against fair odds 0 and are divided by 0)
instead of skipping the match; arbitrage analysis of the same match
returns no opportunity and no error. -/
theorem claim_C3_zero_division_bug :
    calculate_fair_probabilities [("bookA", ⟨2, 0⟩)] = (0, 0) ∧
    calculate_value_bets ⟨1000, 1, 5⟩
        [⟨some "H", some "A", [("bookA", ⟨2, 0⟩)]⟩] =
      Except.error PyErr.zeroDivisionError ∧
    arbForMatch ⟨1000, 1, 5⟩ ⟨some "H", some "A", [("bookA", ⟨2, 0⟩)]⟩ =
      Except.ok none := by
  refine ⟨?_, ?_, ?_⟩
  · norm_num [calculate_fair_probabilities, homeProbs, awayProbs,
      List.filterMap]
  · norm_num [calculate_value_bets, valueForMatch, getField,
      calculate_fair_probabilities, homeProbs, awayProbs, demargin,
      valueQuotes, valueCheckSide, List.filterMap]
  · norm_num [arbForMatch, getField, bestOddsFold, bestOddsStep]

/-- Counterexample to claim C7: a match entry missing the home_team
field is not skipped; both detectors raise KeyError. -/
theorem claim_C7_counterexample :
    calculate_arbitrage_opportunities ⟨1000, 1, 5⟩
        [⟨none, some "A", [("B", ⟨2, 2⟩)]⟩] =
      Except.error PyErr.keyError ∧
    calculate_value_bets ⟨1000, 1, 5⟩
        [⟨none, some "A", [("B", ⟨2, 2⟩)]⟩] =
      Except.error PyErr.keyError :=
  ⟨rfl, rfl⟩

lemma bestOddsFold_nonneg (init : ℚ × ℚ × Option String × Option String)
    (l : List (String × Quote)) (h1 : 0 ≤ init.1) (h2 : 0 ≤ init.2.1) :
    0 ≤ (l.foldl bestOddsStep init).1 ∧ 0 ≤ (l.foldl bestOddsStep init).2.1 := by
  induction l generalizing init with
  | nil => exact ⟨h1, h2⟩
  | cons bq l ih =>
    refine ih (bestOddsStep init bq) ?_ ?_
    · unfold bestOddsStep
      dsimp only
      split_ifs with hc
      · linarith
      · exact h1
    · unfold bestOddsStep
      dsimp only
      split_ifs with hc
      · linarith
      · exact h2

lemma bestOddsStep_skip (acc : ℚ × ℚ × Option String × Option String)
    (b : String) (q : Quote) (h1 : 0 ≤ acc.1) (h2 : 0 ≤ acc.2.1)
    (hqh : q.home ≤ 0) (hqa : q.away ≤ 0) :
    bestOddsStep acc (b, q) = acc := by
  obtain ⟨x, y, z, w⟩ := acc
  have hA : ¬(x < q.home) := not_lt.mpr (hqh.trans h1)
  have hB : ¬(y < q.away) := not_lt.mpr (hqa.trans h2)
  simp only [bestOddsStep, if_neg hA, if_neg hB]

lemma bestOddsFold_skip (odds : List (String × Quote)) (b : String) (q : Quote)
    (hqh : q.home ≤ 0) (hqa : q.away ≤ 0) :
    bestOddsFold (odds ++ [(b, q)]) = bestOddsFold odds := by
  unfold bestOddsFold
  rw [List.foldl_append, List.foldl_cons, List.foldl_nil]
  have hnn := bestOddsFold_nonneg (0, 0, none, none) odds (le_refl 0) (le_refl 0)
  exact bestOddsStep_skip _ b q hnn.1 hnn.2 hqh hqa

lemma homeProbs_append_skip (odds : List (String × Quote)) (b : String)
    (q : Quote) (hqh : q.home ≤ 0) :
    homeProbs (odds ++ [(b, q)]) = homeProbs odds := by
  unfold homeProbs
  rw [List.filterMap_append]
  have : ¬(0 < q.home ∧ 0 < q.away) := fun hc => absurd hc.1 (not_lt.mpr hqh)
  simp [this]

lemma awayProbs_append_skip (odds : List (String × Quote)) (b : String)
    (q : Quote) (hqh : q.home ≤ 0) :
    awayProbs (odds ++ [(b, q)]) = awayProbs odds := by
  unfold awayProbs
  rw [List.filterMap_append]
  have : ¬(0 < q.home ∧ 0 < q.away) := fun hc => absurd hc.1 (not_lt.mpr hqh)
  simp [this]

lemma valueCheckSide_nonpos (cfg : Config)
    (mn ht awt side : String) (fo quoted : ℚ) (b : String)
    (hfo : 0 ≤ fo) (hq : quoted ≤ 0) :
    valueCheckSide cfg mn ht awt side fo quoted b = Except.ok none := by
  unfold valueCheckSide
  rw [if_neg]
  intro hc
  nlinarith

lemma valueQuotes_append_skip (cfg : Config) (mn ht awt : String)
    (fho fao : ℚ) (hfho : 0 ≤ fho) (hfao : 0 ≤ fao)
    (odds : List (String × Quote)) (b : String) (q : Quote)
    (hqh : q.home ≤ 0) (hqa : q.away ≤ 0) :
    valueQuotes cfg mn ht awt fho fao (odds ++ [(b, q)]) =
      valueQuotes cfg mn ht awt fho fao odds := by
  induction odds with
  | nil =>
    simp only [List.nil_append, valueQuotes,
      valueCheckSide_nonpos cfg mn ht awt "home" fho q.home b hfho hqh,
      valueCheckSide_nonpos cfg mn ht awt "away" fao q.away b hfao hqa]
    rfl
  | cons bq odds ih =>
    obtain ⟨b', q'⟩ := bq
    simp only [List.cons_append, valueQuotes, List.append_eq, ih]

/-- Claim C7, amended: a bookmaker quote with both odds values
non-positive is skipped by both detectors (appending it changes neither
detector's result for the match), and a match with complete fields and
an empty odds mapping yields no opportunity and no error; but a match
entry missing a required field is not skipped: both detectors raise
KeyError and the run aborts. -/
theorem claim_C7_amended :
    (∀ (cfg : Config) (ht awt : String) (odds : List (String × Quote))
        (b : String) (q : Quote), q.home ≤ 0 → q.away ≤ 0 →
      arbForMatch cfg ⟨some ht, some awt, odds ++ [(b, q)]⟩ =
        arbForMatch cfg ⟨some ht, some awt, odds⟩ ∧
      valueForMatch cfg ⟨some ht, some awt, odds ++ [(b, q)]⟩ =
        valueForMatch cfg ⟨some ht, some awt, odds⟩) ∧
    (∀ (cfg : Config) (ht awt : String),
      arbForMatch cfg ⟨some ht, some awt, []⟩ = Except.ok none ∧
      valueForMatch cfg ⟨some ht, some awt, []⟩ = Except.ok []) ∧
    (∀ (cfg : Config) (m : MatchRec) (rest : List MatchRec),
      m.home_team = none →
      calculate_arbitrage_opportunities cfg (m :: rest) =
        Except.error PyErr.keyError ∧
      calculate_value_bets cfg (m :: rest) = Except.error PyErr.keyError) := by
  refine ⟨?_, ?_, ?_⟩
  · intro cfg ht awt odds b q hqh hqa
    constructor
    · simp only [arbForMatch, getField]
      rw [bestOddsFold_skip odds b q hqh hqa]
    · simp only [valueForMatch, getField]
      have hf : calculate_fair_probabilities (odds ++ [(b, q)]) =
          calculate_fair_probabilities odds := by
        unfold calculate_fair_probabilities
        rw [homeProbs_append_skip odds b q hqh, awayProbs_append_skip odds b q hqh]
      rw [hf]
      refine valueQuotes_append_skip cfg _ ht awt _ _ ?_ ?_ odds b q hqh hqa
      · split_ifs with hc
        · positivity
        · exact le_refl 0
      · split_ifs with hc
        · positivity
        · exact le_refl 0
  · intro cfg ht awt
    constructor
    · norm_num [arbForMatch, getField, bestOddsFold]
    · norm_num [valueForMatch, getField, valueQuotes,
        calculate_fair_probabilities, homeProbs, List.filterMap]
  · intro cfg m rest hm
    constructor
    · simp only [calculate_arbitrage_opportunities, arbForMatch, hm, getField]
    · simp only [calculate_value_bets, valueForMatch, hm, getField]

/-- Witness for the amended claim C7: a (0, 0) quote appended to one
valid quote is ignored, and a match missing home_team raises KeyError. -/
theorem claim_C7_witness :
    (arbForMatch ⟨1000, 1, 5⟩
        ⟨some "H", some "A", [("B", ⟨2, 2⟩)] ++ [("bad", ⟨0, 0⟩)]⟩ =
      arbForMatch ⟨1000, 1, 5⟩ ⟨some "H", some "A", [("B", ⟨2, 2⟩)]⟩) ∧
    calculate_arbitrage_opportunities ⟨1000, 1, 5⟩ [⟨none, some "A", []⟩] =
      Except.error PyErr.keyError :=
  ⟨(claim_C7_amended.1 ⟨1000, 1, 5⟩ "H" "A" [("B", ⟨2, 2⟩)] "bad" ⟨0, 0⟩
      (by norm_num) (by norm_num)).1,
   (claim_C7_amended.2.2 ⟨1000, 1, 5⟩ ⟨none, some "A", []⟩ [] rfl).1⟩

/-- Counterexample to claim C4: when the same bookmaker B offers the
best price for both sides (here a single bookmaker quoting 3 and 3,
an arbitrage), the emitted arbitrage opportunity has only ONE
stake_distribution entry, because the away entry of the dict literal
overwrites the home entry under the same key. -/
theorem claim_C4_counterexample :
    oppSummaries (calculate_arbitrage_opportunities ⟨1000, 1, 5⟩
      [⟨some "H", some "A", [("B", ⟨3, 3⟩)]⟩]) = [("arbitrage", 1)] := by
  norm_num [oppSummaries, calculate_arbitrage_opportunities, arbForMatch,
    getField, bestOddsFold, bestOddsStep, calcArbitrageDetails,
    arbOpportunity, arbTotalStake, arbGuaranteedProfit, arbHomeStake,
    arbAwayStake, Config.max_stake_per_opportunity, dictInsert, min_def]

/-- Claim C4, amended: an emitted arbitrage opportunity has exactly two
stake_distribution entries when the best-home and best-away bookmakers
differ, but only one entry (the away side overwrites the home side in
the dict literal) when the same bookmaker offers the best price for
both sides; an emitted value-bet opportunity always has exactly one
entry. -/
theorem claim_C4_amended :
    (∀ (cfg : Config) (h a : ℚ) (hbk abk ht awt mn : String)
        (opp : BettingOpportunity),
      calcArbitrageDetails cfg h a hbk abk ht awt mn = Except.ok (some opp) →
      opp.opportunity_type = "arbitrage" ∧
      (hbk ≠ abk → opp.stake_distribution.length = 2) ∧
      (hbk = abk → opp.stake_distribution.length = 1)) ∧
    (∀ (cfg : Config) (mn ht awt side : String) (q : ℚ) (bk : String)
        (vp : ℚ) (vb : BettingOpportunity),
      createValueBet cfg mn ht awt side q bk vp = Except.ok vb →
      vb.opportunity_type = "value_bet" ∧ vb.stake_distribution.length = 1) := by
  constructor
  · intro cfg h a hbk abk ht awt mn opp hok
    unfold calcArbitrageDetails at hok
    split_ifs at hok <;>
      first
        | exact Except.noConfusion hok
        | (rw [Except.ok.injEq] at hok
           exact Option.noConfusion hok)
        | (rw [Except.ok.injEq, Option.some.injEq] at hok
           subst hok
           exact ⟨rfl, fun hne => by simp [arbOpportunity, dictInsert, hne],
             fun heq => by simp [arbOpportunity, dictInsert, heq]⟩)
  · intro cfg mn ht awt side q bk vp vb hok
    unfold createValueBet at hok
    split_ifs at hok <;>
      first
        | exact Except.noConfusion hok
        | (rw [Except.ok.injEq] at hok
           subst hok
           exact ⟨rfl, rfl⟩)

/-- Witness for the amended claim C4 at best odds 3, 3 from distinct
bookmakers b1 and b2. -/
theorem claim_C4_witness : arbDemoOpp.stake_distribution.length = 2 :=
  ((claim_C4_amended.1 ⟨1000, 1, 5⟩ 3 3 "b1" "b2" "H" "A" "H vs A" arbDemoOpp
    (by
      have hne : ¬("b1" : String) = "b2" := by decide
      norm_num [calcArbitrageDetails, arbOpportunity, arbDemoOpp,
        arbTotalStake, Config.max_stake_per_opportunity, dictInsert,
        min_def, hne])).2.1)
    (by decide)

lemma arbTotalStake_pos (cfg : Config) (hb : 0 < cfg.bankroll)
    (hp : 0 < cfg.max_stake_percentage) : 0 < arbTotalStake cfg := by
  unfold arbTotalStake Config.max_stake_per_opportunity
  exact lt_min (by positivity) (by positivity)

lemma calcArbitrageDetails_no_arb (cfg : Config) (h a : ℚ)
    (hbk abk ht awt mn : String) (hh : 0 < h) (ha : 0 < a)
    (hge : 1 ≤ 1/h + 1/a) :
    calcArbitrageDetails cfg h a hbk abk ht awt mn = Except.ok none := by
  unfold calcArbitrageDetails
  rw [if_neg (by push_neg; exact ⟨hh.ne', ha.ne'⟩), if_pos hge]

lemma calcArbitrageDetails_arb (cfg : Config) (h a : ℚ)
    (hbk abk ht awt mn : String) (hh : 0 < h) (ha : 0 < a)
    (hs : 0 < arbTotalStake cfg) (hlt : 1/h + 1/a < 1) :
    calcArbitrageDetails cfg h a hbk abk ht awt mn =
      Except.ok (some (arbOpportunity cfg h a hbk abk ht awt mn)) := by
  have hsum : 0 < 1/h + 1/a := by positivity
  unfold calcArbitrageDetails
  rw [if_neg (by push_neg; exact ⟨hh.ne', ha.ne'⟩), if_neg (not_le.mpr hlt),
    if_neg hsum.ne', if_neg hs.ne']

lemma arbOpportunity_profit (cfg : Config) (h a : ℚ)
    (hbk abk ht awt mn : String) :
    (arbOpportunity cfg h a hbk abk ht awt mn).profit_percentage =
      (1 / (1/h + 1/a) - 1) * 100 := rfl

/-- Claim C1: for a match whose best home and away odds h and a are both
positive (under a valid configuration with positive bankroll and
positive max stake percentage), the arbitrage pass over that single
match emits the arbitrage opportunity if and only if 1/h + 1/a < 1
strictly and the profit percentage (1/(1/h + 1/a) - 1) * 100 reaches
min_profit_percentage; otherwise it emits nothing. -/
theorem claim_C1_arbitrage_emission_iff (cfg : Config) (m : MatchRec)
    (ht awt : String) (h a : ℚ) (bh ba : Option String)
    (hht : m.home_team = some ht) (hawt : m.away_team = some awt)
    (hb : 0 < cfg.bankroll) (hp : 0 < cfg.max_stake_percentage)
    (hbest1 : (bestOddsFold m.odds).1 = h)
    (hbest2 : (bestOddsFold m.odds).2.1 = a)
    (hbook1 : (bestOddsFold m.odds).2.2.1 = bh)
    (hbook2 : (bestOddsFold m.odds).2.2.2 = ba)
    (hh : 0 < h) (ha : 0 < a) :
    ((calculate_arbitrage_opportunities cfg [m] =
        Except.ok [arbOpportunity cfg h a (bh.getD "") (ba.getD "") ht awt
          (ht ++ " vs " ++ awt)]) ↔
      (1/h + 1/a < 1 ∧
        cfg.min_profit_percentage ≤ (1 / (1/h + 1/a) - 1) * 100)) ∧
    (¬(1/h + 1/a < 1 ∧
        cfg.min_profit_percentage ≤ (1 / (1/h + 1/a) - 1) * 100) →
      calculate_arbitrage_opportunities cfg [m] = Except.ok []) := by
  have hs := arbTotalStake_pos cfg hb hp
  simp only [calculate_arbitrage_opportunities, arbForMatch, hht, hawt,
    getField, hbest1, hbest2, hbook1, hbook2]
  rw [if_pos ⟨hh, ha⟩]
  by_cases hlt : 1/h + 1/a < 1
  · rw [calcArbitrageDetails_arb cfg h a (bh.getD "") (ba.getD "") ht awt
      (ht ++ " vs " ++ awt) hh ha hs hlt]
    simp only [arbOpportunity_profit]
    by_cases hmin : cfg.min_profit_percentage ≤ (1 / (1/h + 1/a) - 1) * 100
    · rw [if_pos hmin]
      constructor
      · exact ⟨fun _ => ⟨hlt, hmin⟩, fun _ => rfl⟩
      · intro hc
        exact absurd ⟨hlt, hmin⟩ hc
    · rw [if_neg hmin]
      constructor
      · constructor
        · intro hc
          rw [Except.ok.injEq] at hc
          exact absurd hc (by simp)
        · intro hc
          exact absurd hc.2 hmin
      · intro _
        rfl
  · rw [calcArbitrageDetails_no_arb cfg h a (bh.getD "") (ba.getD "") ht awt
      (ht ++ " vs " ++ awt) hh ha (not_lt.mp hlt)]
    constructor
    · constructor
      · intro hc
        rw [Except.ok.injEq] at hc
        exact absurd hc (by simp)
      · intro hc
        exact absurd hc.1 hlt
    · intro _
      rfl

/-- Witness for claim C1: a single bookmaker quoting (3, 3) under
configuration (1000, 1, 5) yields an emitted arbitrage opportunity. -/
theorem claim_C1_witness :
    calculate_arbitrage_opportunities ⟨1000, 1, 5⟩
        [⟨some "H", some "A", [("B", ⟨3, 3⟩)]⟩] =
      Except.ok [arbOpportunity ⟨1000, 1, 5⟩ 3 3
        ((some "B").getD "") ((some "B").getD "") "H" "A"
        ("H" ++ " vs " ++ "A")] :=
  (claim_C1_arbitrage_emission_iff ⟨1000, 1, 5⟩
    ⟨some "H", some "A", [("B", ⟨3, 3⟩)]⟩ "H" "A" 3 3 (some "B") (some "B")
    rfl rfl (by norm_num) (by norm_num)
    (by norm_num [bestOddsFold, bestOddsStep])
    (by norm_num [bestOddsFold, bestOddsStep])
    (by norm_num [bestOddsFold, bestOddsStep])
    (by norm_num [bestOddsFold, bestOddsStep])
    (by norm_num) (by norm_num)).1.mpr (by norm_num)

lemma valueStake_pos (cfg : Config) (q vp : ℚ) (hb : 0 < cfg.bankroll)
    (hp : 0 < cfg.max_stake_percentage) (hq : 1 < q) (hvp : 0 < vp) :
    0 < valueStake cfg q vp := by
  have hq1 : 0 < q - 1 := sub_pos.mpr hq
  unfold valueStake Config.max_stake_per_opportunity
  exact lt_min (by positivity) (lt_min (by positivity) (by positivity))

lemma createValueBet_ok (cfg : Config) (mn ht awt side : String) (q : ℚ)
    (bk : String) (vp : ℚ) (hb : 0 < cfg.bankroll)
    (hp : 0 < cfg.max_stake_percentage) (hq : 1 < q) (hvp : 0 < vp) :
    createValueBet cfg mn ht awt side q bk vp =
      Except.ok (valueBetOpportunity cfg mn ht awt side q bk vp) := by
  unfold createValueBet
  rw [if_neg (sub_ne_zero.mpr hq.ne'),
    if_neg (valueStake_pos cfg q vp hb hp hq hvp).ne']

/-- The two fair-side probabilities, packaged for statements that hold
for either side. -/
lemma fair_prob_pos_lt_one (odds : List (String × Quote)) (fp : ℚ)
    (hv : ∃ bq ∈ odds, 0 < (bq : String × Quote).2.home ∧ 0 < bq.2.away)
    (hfp : fp = (calculate_fair_probabilities odds).1 ∨
           fp = (calculate_fair_probabilities odds).2) :
    0 < fp ∧ fp < 1 := by
  have h := fair_probabilities_mem_Ioo odds hv
  rcases hfp with h1 | h1 <;> rw [h1]
  · exact h.1
  · exact h.2

/-- Claim C5: with at least one bookmaker quote whose sides are both
positive (so that the fair odds 1/fp of a side are well defined), the
value-bet check for a (bookmaker, side) pair emits an opportunity if
and only if the quoted odds strictly exceed fair_odds * 1.05 and the
value percentage ((quoted / fair_odds) - 1) * 100 reaches
min_profit_percentage; when either condition fails it emits nothing. -/
theorem claim_C5_value_bet_iff (cfg : Config)
    (odds : List (String × Quote))
    (hv : ∃ bq ∈ odds, 0 < (bq : String × Quote).2.home ∧ 0 < bq.2.away)
    (fp : ℚ)
    (hfp : fp = (calculate_fair_probabilities odds).1 ∨
           fp = (calculate_fair_probabilities odds).2)
    (hb : 0 < cfg.bankroll) (hp : 0 < cfg.max_stake_percentage)
    (mn ht awt side bk : String) (q : ℚ) :
    ((valueCheckSide cfg mn ht awt side (1/fp) q bk =
        Except.ok (some (valueBetOpportunity cfg mn ht awt side q bk
          ((q / (1/fp) - 1) * 100)))) ↔
      ((1/fp) * (105/100) < q ∧
        cfg.min_profit_percentage ≤ (q / (1/fp) - 1) * 100)) ∧
    (¬((1/fp) * (105/100) < q ∧
        cfg.min_profit_percentage ≤ (q / (1/fp) - 1) * 100) →
      valueCheckSide cfg mn ht awt side (1/fp) q bk = Except.ok none) := by
  obtain ⟨hfp0, hfp1⟩ := fair_prob_pos_lt_one odds fp hv hfp
  have hf0 : 0 < 1/fp := by positivity
  have hf1 : 1 < 1/fp := one_lt_one_div hfp0 hfp1
  unfold valueCheckSide
  by_cases hedge : (1/fp) * (105/100) < q
  · rw [if_pos hedge, if_neg hf0.ne']
    have hq : 1 < q := by nlinarith
    have hvp : 0 < (q / (1/fp) - 1) * 100 := by
      have : 1 < q / (1/fp) := (one_lt_div hf0).mpr (by nlinarith)
      nlinarith
    by_cases hmin : cfg.min_profit_percentage ≤ (q / (1/fp) - 1) * 100
    · rw [if_pos hmin,
        createValueBet_ok cfg mn ht awt side q bk _ hb hp hq hvp]
      exact ⟨⟨fun _ => ⟨hedge, hmin⟩, fun _ => rfl⟩,
        fun hc => absurd ⟨hedge, hmin⟩ hc⟩
    · rw [if_neg hmin]
      refine ⟨⟨fun hc => ?_, fun hc => absurd hc.2 hmin⟩, fun _ => rfl⟩
      rw [Except.ok.injEq] at hc
      exact Option.noConfusion hc
  · rw [if_neg hedge]
    refine ⟨⟨fun hc => ?_, fun hc => absurd hc.1 hedge⟩, fun _ => rfl⟩
    rw [Except.ok.injEq] at hc
    exact Option.noConfusion hc

/-- Witness for claim C5: fair probability 1/2 (from a lone (3, 3)
quote), quoted odds 3 at bookmaker B1 clear both thresholds. -/
theorem claim_C5_witness :
    valueCheckSide ⟨1000, 1, 5⟩ "H vs A" "H" "A" "home" (1/(1/2)) 3 "B1" =
      Except.ok (some (valueBetOpportunity ⟨1000, 1, 5⟩ "H vs A" "H" "A"
        "home" 3 "B1" ((3 / (1/(1/2:ℚ)) - 1) * 100))) :=
  (claim_C5_value_bet_iff ⟨1000, 1, 5⟩ [("B1", ⟨3, 3⟩)]
    ⟨("B1", ⟨3, 3⟩), List.mem_singleton_self _, by norm_num, by norm_num⟩
    (1/2)
    (Or.inl (by norm_num [calculate_fair_probabilities, homeProbs,
      demargin, List.filterMap]))
    (by norm_num) (by norm_num) "H vs A" "H" "A" "home" "B1" 3).1.mpr
    ⟨by norm_num, by norm_num⟩

/-- Claim C8: every value-bet opportunity emitted by the per-side check
(under positive bankroll and positive max stake percentage) has
roi = (quoted_odds - 1) * 100 exactly, and the unrounded stake in the
roi denominator is strictly positive. -/
theorem claim_C8_value_roi (cfg : Config) (odds : List (String × Quote))
    (hv : ∃ bq ∈ odds, 0 < (bq : String × Quote).2.home ∧ 0 < bq.2.away)
    (fp : ℚ)
    (hfp : fp = (calculate_fair_probabilities odds).1 ∨
           fp = (calculate_fair_probabilities odds).2)
    (hb : 0 < cfg.bankroll) (hp : 0 < cfg.max_stake_percentage)
    (mn ht awt side bk : String) (q : ℚ) (opp : BettingOpportunity)
    (hemit : valueCheckSide cfg mn ht awt side (1/fp) q bk =
      Except.ok (some opp)) :
    opp.roi = (q - 1) * 100 ∧
    0 < valueStake cfg q ((q / (1/fp) - 1) * 100) := by
  obtain ⟨hfp0, hfp1⟩ := fair_prob_pos_lt_one odds fp hv hfp
  have hf0 : 0 < 1/fp := by positivity
  have hf1 : 1 < 1/fp := one_lt_one_div hfp0 hfp1
  unfold valueCheckSide at hemit
  split_ifs at hemit with h1 h2 h3 <;>
    first
    | exact Except.noConfusion hemit
    | (rw [Except.ok.injEq] at hemit
       exact Option.noConfusion hemit)
    | (have hq : 1 < q := by nlinarith
       have hvp : 0 < (q / (1/fp) - 1) * 100 := by
         have : 1 < q / (1/fp) := (one_lt_div hf0).mpr (by nlinarith)
         nlinarith
       have hs := valueStake_pos cfg q _ hb hp hq hvp
       simp only [createValueBet_ok cfg mn ht awt side q bk _ hb hp hq hvp]
         at hemit
       rw [Except.ok.injEq, Option.some.injEq] at hemit
       subst hemit
       refine ⟨?_, hs⟩
       show valueStake cfg q ((q / (1/fp) - 1) * 100) * (q - 1) /
           valueStake cfg q ((q / (1/fp) - 1) * 100) * 100 = (q - 1) * 100
       rw [mul_comm (valueStake cfg q ((q / (1/fp) - 1) * 100)) (q - 1),
         mul_div_assoc, div_self hs.ne', mul_one])

/-- Witness for claim C8 at the emitted value bet of claim C5's
scenario: fair probability 1/2, quoted odds 3. -/
theorem claim_C8_witness :
    (valueBetOpportunity ⟨1000, 1, 5⟩ "H vs A" "H" "A" "home" 3 "B1"
        ((3 / (1/(1/2:ℚ)) - 1) * 100)).roi = (3 - 1) * 100 ∧
    0 < valueStake ⟨1000, 1, 5⟩ 3 ((3 / (1/(1/2:ℚ)) - 1) * 100) :=
  claim_C8_value_roi ⟨1000, 1, 5⟩ [("B1", ⟨3, 3⟩)]
    ⟨("B1", ⟨3, 3⟩), List.mem_singleton_self _, by norm_num, by norm_num⟩
    (1/2)
    (Or.inl (by norm_num [calculate_fair_probabilities, homeProbs,
      demargin, List.filterMap]))
    (by norm_num) (by norm_num) "H vs A" "H" "A" "home" "B1" 3 _
    (by norm_num [valueCheckSide, createValueBet, valueStake,
      Config.max_stake_per_opportunity, min_def])

/-- Counterexample to claim C6: with bankroll 1000.3, max stake 2% (cap
20.006) and best odds 2 / 100000 from distinct bookmakers, the emitted
home amount is rounded up to 20.01, which exceeds the cap
bankroll * max_stake_percentage / 100 = 20.006. -/
theorem claim_C6_counterexample :
    amountsOf (calculate_arbitrage_opportunities ⟨10003/10, 1, 2⟩
      [⟨some "H", some "A", [("B1", ⟨2, 3/2⟩), ("B2", ⟨3/2, 100000⟩)]⟩]) =
      [2001/100, 0] ∧
    ¬((2001/100 : ℚ) ≤ (10003/10) * 2 / 100) := by
  constructor
  · have hne : ¬("B1" : String) = "B2" := by decide
    norm_num [amountsOf, calculate_arbitrage_opportunities, arbForMatch,
      getField, bestOddsFold, bestOddsStep, calcArbitrageDetails,
      arbOpportunity, arbTotalStake, arbGuaranteedProfit, arbHomeStake,
      arbAwayStake, Config.max_stake_per_opportunity, dictInsert, min_def,
      pyRound2, roundHalfEven, hne]
  · norm_num

/-- Claim C6, amended: under a valid configuration, every unrounded
stake respects its caps — each arbitrage per-outcome stake is at most
bankroll * max_stake_percentage / 100, and the value-bet stake, being
min(0.25 * kelly * bankroll, max_stake_per_opportunity, bankroll*0.05),
is at most both caps — while the rounded amount recorded in the emitted
opportunity can exceed each cap by at most 0.005 (half of the 2-decimal
reporting unit). -/
theorem claim_C6_amended (cfg : Config) (hb : 0 < cfg.bankroll)
    (hp : 0 < cfg.max_stake_percentage) :
    (∀ h a : ℚ, 0 < h → 0 < a →
      arbHomeStake cfg h a ≤ cfg.bankroll * cfg.max_stake_percentage / 100 ∧
      arbAwayStake cfg h a ≤ cfg.bankroll * cfg.max_stake_percentage / 100 ∧
      pyRound2 (arbHomeStake cfg h a) ≤
        cfg.bankroll * cfg.max_stake_percentage / 100 + 1/200 ∧
      pyRound2 (arbAwayStake cfg h a) ≤
        cfg.bankroll * cfg.max_stake_percentage / 100 + 1/200) ∧
    (∀ q vp : ℚ,
      valueStake cfg q vp ≤ cfg.bankroll * cfg.max_stake_percentage / 100 ∧
      valueStake cfg q vp ≤ cfg.bankroll * (5/100) ∧
      pyRound2 (valueStake cfg q vp) ≤
        cfg.bankroll * cfg.max_stake_percentage / 100 + 1/200 ∧
      pyRound2 (valueStake cfg q vp) ≤ cfg.bankroll * (5/100) + 1/200) := by
  have hcap : arbTotalStake cfg ≤ cfg.bankroll * cfg.max_stake_percentage / 100 := by
    unfold arbTotalStake Config.max_stake_per_opportunity
    rw [mul_div_assoc]
    exact min_le_left _ _
  have hT : 0 < arbTotalStake cfg := arbTotalStake_pos cfg hb hp
  constructor
  · intro h a hh ha
    have hsum : (0:ℚ) < 1/h + 1/a := by positivity
    have hshareh : (1/h) / (1/h + 1/a) ≤ 1 := by
      rw [div_le_one hsum]
      have : (0:ℚ) < 1/a := by positivity
      linarith
    have hsharea : (1/a) / (1/h + 1/a) ≤ 1 := by
      rw [div_le_one hsum]
      have : (0:ℚ) < 1/h := by positivity
      linarith
    have hhs : arbHomeStake cfg h a ≤ cfg.bankroll * cfg.max_stake_percentage / 100 := by
      unfold arbHomeStake
      exact le_trans (mul_le_of_le_one_left hT.le hshareh) hcap
    have has : arbAwayStake cfg h a ≤ cfg.bankroll * cfg.max_stake_percentage / 100 := by
      unfold arbAwayStake
      exact le_trans (mul_le_of_le_one_left hT.le hsharea) hcap
    refine ⟨hhs, has, ?_, ?_⟩
    · have := pyRound2_le (arbHomeStake cfg h a)
      linarith
    · have := pyRound2_le (arbAwayStake cfg h a)
      linarith
  · intro q vp
    have h1 : valueStake cfg q vp ≤ cfg.bankroll * cfg.max_stake_percentage / 100 := by
      unfold valueStake Config.max_stake_per_opportunity
      rw [mul_div_assoc]
      exact le_trans (min_le_right _ _) (min_le_left _ _)
    have h2 : valueStake cfg q vp ≤ cfg.bankroll * (5/100) := by
      unfold valueStake
      exact le_trans (min_le_right _ _) (min_le_right _ _)
    refine ⟨h1, h2, ?_, ?_⟩
    · have := pyRound2_le (valueStake cfg q vp)
      linarith
    · have := pyRound2_le (valueStake cfg q vp)
      linarith

/-- Witness for the amended claim C6 at cfg = (1000, 1, 5), best odds
(3, 3) and a value stake for quoted odds 3 at 50% value. -/
theorem claim_C6_witness :
    arbHomeStake ⟨1000, 1, 5⟩ 3 3 ≤ 1000 * 5 / 100 ∧
    valueStake ⟨1000, 1, 5⟩ 3 50 ≤ 1000 * (5/100) :=
  ⟨((claim_C6_amended ⟨1000, 1, 5⟩ (by norm_num) (by norm_num)).1 3 3
      (by norm_num) (by norm_num)).1,
   ((claim_C6_amended ⟨1000, 1, 5⟩ (by norm_num) (by norm_num)).2 3 50).2.1⟩

lemma insertRoi_perm (x : BettingOpportunity) (l : List BettingOpportunity) :
    (insertRoi x l).Perm (x :: l) := by
  induction l with
  | nil => exact List.Perm.refl _
  | cons y l ih =>
    unfold insertRoi
    by_cases hc : y.roi ≤ x.roi
    · rw [if_pos hc]
    · rw [if_neg hc]
      exact (ih.cons y).trans (List.Perm.swap x y l)

lemma sortRoiDesc_perm (l : List BettingOpportunity) :
    (sortRoiDesc l).Perm l := by
  induction l with
  | nil => exact List.Perm.refl _
  | cons x l ih =>
    exact (insertRoi_perm x (sortRoiDesc l)).trans (ih.cons x)

lemma insertRoi_sorted (x : BettingOpportunity) (l : List BettingOpportunity)
    (hl : List.Pairwise (fun p q => q.roi ≤ p.roi) l) :
    List.Pairwise (fun p q => q.roi ≤ p.roi) (insertRoi x l) := by
  induction l with
  | nil => exact List.pairwise_singleton _ x
  | cons y l ih =>
    rw [List.pairwise_cons] at hl
    unfold insertRoi
    by_cases hc : y.roi ≤ x.roi
    · rw [if_pos hc]
      rw [List.pairwise_cons]
      refine ⟨?_, List.Pairwise.cons hl.1 hl.2⟩
      intro z hz
      rcases List.mem_cons.mp hz with rfl | hz
      · exact hc
      · exact le_trans (hl.1 z hz) hc
    · rw [if_neg hc]
      rw [List.pairwise_cons]
      refine ⟨?_, ih hl.2⟩
      intro z hz
      have hz' := (insertRoi_perm x l).mem_iff.mp hz
      rcases List.mem_cons.mp hz' with rfl | hz'
      · exact le_of_lt (not_le.mp hc)
      · exact hl.1 z hz'

lemma sortRoiDesc_sorted (l : List BettingOpportunity) :
    List.Pairwise (fun p q => q.roi ≤ p.roi) (sortRoiDesc l) := by
  induction l with
  | nil => exact List.Pairwise.nil
  | cons x l ih => exact insertRoi_sorted x (sortRoiDesc l) ih

lemma insertRoi_filter (r : ℚ) (x : BettingOpportunity)
    (l : List BettingOpportunity) :
    (insertRoi x l).filter (fun o => decide (o.roi = r)) =
      (x :: l).filter (fun o => decide (o.roi = r)) := by
  induction l with
  | nil => rfl
  | cons y l ih =>
    unfold insertRoi
    by_cases hc : y.roi ≤ x.roi
    · rw [if_pos hc]
    · rw [if_neg hc]
      by_cases hy : y.roi = r
      · have hx : ¬ x.roi = r := fun h => hc (le_of_eq (by rw [hy, h]))
        simp only [List.filter_cons, decide_eq_true_eq, hy, hx, ih,
          if_true, if_false]
      · simp only [List.filter_cons, decide_eq_true_eq, hy, ih, if_false]

lemma sortRoiDesc_filter (r : ℚ) (l : List BettingOpportunity) :
    (sortRoiDesc l).filter (fun o => decide (o.roi = r)) =
      l.filter (fun o => decide (o.roi = r)) := by
  induction l with
  | nil => rfl
  | cons x l ih =>
    show ((insertRoi x (sortRoiDesc l)).filter _) = _
    rw [insertRoi_filter r x (sortRoiDesc l)]
    simp only [List.filter_cons, decide_eq_true_eq, ih]

/-- Claim C10: when both detector passes succeed, the final list is the
stable descending-roi sort of the concatenation of the arbitrage and
value-bet lists: it is a permutation of the concatenation, its roi
values are non-increasing, and for every roi value the subsequence of
opportunities carrying it is exactly the one of the concatenated input
(stability). -/
theorem claim_C10_ranker (cfg : Config) (ms : List MatchRec)
    (arbs vals : List BettingOpportunity)
    (ha : calculate_arbitrage_opportunities cfg ms = Except.ok arbs)
    (hv : calculate_value_bets cfg ms = Except.ok vals) :
    find_all_opportunities cfg ms = Except.ok (sortRoiDesc (arbs ++ vals)) ∧
    (sortRoiDesc (arbs ++ vals)).Perm (arbs ++ vals) ∧
    List.Pairwise (fun p q => q.roi ≤ p.roi) (sortRoiDesc (arbs ++ vals)) ∧
    ∀ r : ℚ,
      (sortRoiDesc (arbs ++ vals)).filter (fun o => decide (o.roi = r)) =
        (arbs ++ vals).filter (fun o => decide (o.roi = r)) := by
  refine ⟨?_, sortRoiDesc_perm _, sortRoiDesc_sorted _,
    fun r => sortRoiDesc_filter r _⟩
  unfold find_all_opportunities
  by_cases hms : ms = []
  · subst hms
    rw [if_pos rfl]
    rw [show calculate_arbitrage_opportunities cfg [] = Except.ok [] from rfl,
      Except.ok.injEq] at ha
    rw [show calculate_value_bets cfg [] = Except.ok [] from rfl,
      Except.ok.injEq] at hv
    subst ha
    subst hv
    rfl
  · rw [if_neg hms, ha, hv]

/-- Witness for claim C10 on a single match with an empty odds mapping:
both detectors succeed with empty lists and the ranker returns the sort
of their concatenation. -/
theorem claim_C10_witness :
    find_all_opportunities ⟨1000, 1, 5⟩ [⟨some "H", some "A", []⟩] =
      Except.ok (sortRoiDesc ([] ++ [])) :=
  (claim_C10_ranker ⟨1000, 1, 5⟩ [⟨some "H", some "A", []⟩] [] []
    (by norm_num [calculate_arbitrage_opportunities, arbForMatch, getField,
      bestOddsFold])
    (by norm_num [calculate_value_bets, valueForMatch, getField,
      valueQuotes, calculate_fair_probabilities, homeProbs,
      List.filterMap])).1
